import Mathlib

/-!
# Verification of the MF_Calculator projection engine

Shallow embedding of `calculations.py` (class `MutualFundCalculator`):
the three year-by-year simulators `one_time_investment`, `sip_calculator`,
`swp_calculator` and the metric `calculate_cagr`.

Modelling conventions:
* Python floats are modelled by exact rationals `ℚ` (ideal real arithmetic);
  `calculate_cagr` needs a real exponent `** (1/years)` and is modelled over `ℝ`
  with `Real.rpow`.
* Each simulator is split into a `..._raw` function that emits the exact
  (pre-quantization) row values computed inside the Python loop body, and the
  simulator itself, which applies the quantization done at dict construction:
  `int(x)` (truncation toward zero, `truncZ`) on monetary fields and
  `round(x, 2)` (`round2`) on the percent field.  The tie-breaking behaviour of
  Python's `round` on binary floats at exact half-way points is not modelled.
* `years` is a natural number; the Python loop `for year in range(1, years+1)`
  becomes structural recursion on the number of remaining years.
* The frequency argument is a `String`, normalised by `normFreq` exactly as the
  `freq_map.get(increase_frequency, increase_frequency.lower())` lookup does.
-/

/-- Python `int(x)` on a float/rational: truncation toward zero. -/
def truncZ (q : ℚ) : ℤ := if 0 ≤ q then ⌊q⌋ else ⌈q⌉

/-- Python `round(x, 2)`: rounding to two decimal places. -/
def round2 (q : ℚ) : ℚ := (round (q * 100) : ℚ) / 100

/-- The `freq_map` dictionary lookup with default `increase_frequency.lower()`
(`calculations.py` lines 19-27, repeated in all three simulators). -/
def normFreq (s : String) : String :=
  if s = "Yearly" then "yearly"
  else if s = "Every 3 years" then "every_3_years"
  else if s = "Every 5 years" then "every_5_years"
  else if s = "yearly" then "yearly"
  else if s = "every_3_years" then "every_3_years"
  else if s = "every_5_years" then "every_5_years"
  else s.toLower

/-! ## One-time investment -/

/-- Exact values of one emitted row of `one_time_investment`, before the
`int(...)`/`round(...)` quantization at dict construction. -/
structure OneTimeRow where
  period : ℕ
  year : ℕ
  totalPrincipal : ℚ
  additionalInvestment : ℚ
  finalAmount : ℚ
  interestEarned : ℚ
  interestPercent : ℚ
  realValue : ℚ
  deriving Repr, DecidableEq

/-- One emitted row of `one_time_investment` as appended to `results`
(`calculations.py` lines 56-65). -/
structure OneTimeRecord where
  period : ℕ
  year : ℕ
  totalPrincipal : ℤ
  additionalInvestment : ℤ
  finalAmount : ℤ
  interestEarned : ℤ
  interestPercent : ℚ
  realValue : Option ℤ
  deriving Repr, DecidableEq

/-- The additional investment decided at the top of a loop iteration of
`one_time_investment` (lines 31-38); `freq` is already normalised. -/
def oneTimeAdditional (enable : Bool) (freq : String) (amt : ℚ) (year : ℕ) : ℚ :=
  if enable ∧ 0 < amt then
    if freq = "yearly" then amt
    else if freq = "every_3_years" ∧ year % 3 = 0 then amt
    else if freq = "every_5_years" ∧ year % 5 = 0 then amt
    else 0
  else 0

/-- One loop iteration of `one_time_investment` (lines 29-65).  The state is
`(current_amount, total_principal)`. -/
def oneTimeStep (rate infl : ℚ) (enable : Bool) (freq : String) (amt : ℚ)
    (year : ℕ) (st : ℚ × ℚ) : (ℚ × ℚ) × OneTimeRow :=
  let add := oneTimeAdditional enable freq amt year
  let ca0 := st.1 + add
  let tp := st.2 + add
  let ca := ca0 * (1 + rate / 100)
  let rv := if 0 < infl then ca / (1 + infl / 100) ^ year else ca
  let ie := ca - tp
  let ip := if 0 < tp then ie / tp * 100 else 0
  ((ca, tp), ⟨year, 2025 + year, tp, add, ca, ie, ip, rv⟩)

/-- The `for year in range(1, years+1)` loop of `one_time_investment`:
`n` years remain, the next one has index `year`. -/
def oneTimeLoop (rate infl : ℚ) (enable : Bool) (freq : String) (amt : ℚ) :
    ℕ → ℕ → ℚ × ℚ → List OneTimeRow
  | _, 0, _ => []
  | year, n + 1, st =>
    let p := oneTimeStep rate infl enable freq amt year st
    p.2 :: oneTimeLoop rate infl enable freq amt (year + 1) n p.1

/-- `one_time_investment` up to (but not including) the `int`/`round`
quantization of the appended dict. -/
def one_time_investment_raw (principal rate : ℚ) (years : ℕ) (infl : ℚ)
    (enable : Bool) (freq : String) (amt : ℚ) : List OneTimeRow :=
  oneTimeLoop rate infl enable (normFreq freq) amt 1 years (principal, principal)

/-- The quantization applied when a row is appended to `results`
(lines 56-65): `int(...)` on monetary fields, `round(..., 2)` on the percent,
and the real value present only when `inflation_rate > 0`. -/
def quantizeOneTime (infl : ℚ) (r : OneTimeRow) : OneTimeRecord :=
  ⟨r.period, r.year, truncZ r.totalPrincipal, truncZ r.additionalInvestment,
   truncZ r.finalAmount, truncZ r.interestEarned, round2 r.interestPercent,
   if 0 < infl then some (truncZ r.realValue) else none⟩

/-- `MutualFundCalculator.one_time_investment` (lines 8-67), as the list of
emitted rows of the returned DataFrame. -/
def one_time_investment (principal rate : ℚ) (years : ℕ) (infl : ℚ)
    (enable : Bool) (freq : String) (amt : ℚ) : List OneTimeRecord :=
  (one_time_investment_raw principal rate years infl enable freq amt).map
    (quantizeOneTime infl)

/-! ## SIP calculator -/

/-- Exact values of one emitted row of `sip_calculator`. -/
structure SIPRow where
  period : ℕ
  year : ℕ
  monthlySIP : ℚ
  annualInvestment : ℚ
  totalInvested : ℚ
  finalAmount : ℚ
  gains : ℚ
  gainsPercent : ℚ
  realValue : ℚ
  deriving Repr, DecidableEq

/-- One emitted row of `sip_calculator` (lines 118-128). -/
structure SIPRecord where
  period : ℕ
  year : ℕ
  monthlySIP : ℤ
  annualInvestment : ℤ
  totalInvested : ℤ
  finalAmount : ℤ
  gains : ℤ
  gainsPercent : ℚ
  realValue : Option ℤ
  deriving Repr, DecidableEq

/-- The step-up adjustment of the running monthly amount at the top of a loop
iteration of `sip_calculator` (lines 94-101) and, identically, of
`swp_calculator` (lines 157-164); `freq` is already normalised. -/
def stepUpMonthly (enable : Bool) (freq : String) (pct : ℚ) (year : ℕ)
    (cur : ℚ) : ℚ :=
  if enable ∧ 0 < pct then
    if freq = "yearly" then
      if 1 < year then cur * (1 + pct / 100) else cur
    else if freq = "every_3_years" ∧ 1 < year ∧ (year - 1) % 3 = 0 then
      cur * (1 + pct / 100)
    else if freq = "every_5_years" ∧ 1 < year ∧ (year - 1) % 5 = 0 then
      cur * (1 + pct / 100)
    else cur
  else cur

/-- The inner `for month in range(12)` loop of `sip_calculator`
(lines 103-107).  The state is `(total_invested, year_invested, current_value)`. -/
def sipMonths (mr sip : ℚ) : ℕ → ℚ × ℚ × ℚ → ℚ × ℚ × ℚ
  | 0, st => st
  | n + 1, (ti, yi, cv) => sipMonths mr sip n (ti + sip, yi + sip, (cv + sip) * (1 + mr))

/-- One loop iteration of `sip_calculator` (lines 92-128).  The state is
`(total_invested, current_value, current_monthly_sip)`. -/
def sipStep (mr infl : ℚ) (enable : Bool) (freq : String) (pct : ℚ)
    (year : ℕ) (st : ℚ × ℚ × ℚ) : (ℚ × ℚ × ℚ) × SIPRow :=
  let sip := stepUpMonthly enable freq pct year st.2.2
  let m := sipMonths mr sip 12 (st.1, 0, st.2.1)
  let ti := m.1
  let yi := m.2.1
  let cv := m.2.2
  let rv := if 0 < infl then cv / (1 + infl / 100) ^ year else cv
  let g := cv - ti
  let gp := if 0 < ti then g / ti * 100 else 0
  ((ti, cv, sip), ⟨year, 2025 + year, sip, yi, ti, cv, g, gp, rv⟩)

/-- The `for year in range(1, years+1)` loop of `sip_calculator`. -/
def sipLoop (mr infl : ℚ) (enable : Bool) (freq : String) (pct : ℚ) :
    ℕ → ℕ → ℚ × ℚ × ℚ → List SIPRow
  | _, 0, _ => []
  | year, n + 1, st =>
    let p := sipStep mr infl enable freq pct year st
    p.2 :: sipLoop mr infl enable freq pct (year + 1) n p.1

/-- `sip_calculator` up to the `int`/`round` quantization.  The monthly rate is
`rate / (12 * 100)` (line 76). -/
def sip_calculator_raw (monthly rate : ℚ) (years : ℕ) (infl : ℚ)
    (enable : Bool) (freq : String) (pct : ℚ) : List SIPRow :=
  sipLoop (rate / (12 * 100)) infl enable (normFreq freq) pct 1 years (0, 0, monthly)

/-- The quantization applied at lines 118-128. -/
def quantizeSIP (infl : ℚ) (r : SIPRow) : SIPRecord :=
  ⟨r.period, r.year, truncZ r.monthlySIP, truncZ r.annualInvestment,
   truncZ r.totalInvested, truncZ r.finalAmount, truncZ r.gains,
   round2 r.gainsPercent, if 0 < infl then some (truncZ r.realValue) else none⟩

/-- `MutualFundCalculator.sip_calculator` (lines 69-130). -/
def sip_calculator (monthly rate : ℚ) (years : ℕ) (infl : ℚ)
    (enable : Bool) (freq : String) (pct : ℚ) : List SIPRecord :=
  (sip_calculator_raw monthly rate years infl enable freq pct).map (quantizeSIP infl)

/-! ## SWP calculator -/

/-- Exact values of one emitted row of `swp_calculator`.  `realWithdrawn` is
computed at line 181 but never placed in the emitted dict. -/
structure SWPRow where
  period : ℕ
  year : ℕ
  monthlyWithdrawal : ℚ
  annualWithdrawn : ℚ
  remainingBalance : ℚ
  totalWithdrawn : ℚ
  realBalance : ℚ
  realWithdrawn : ℚ
  deriving Repr, DecidableEq

/-- One emitted row of `swp_calculator` (lines 186-194). -/
structure SWPRecord where
  period : ℕ
  year : ℕ
  monthlyWithdrawal : ℤ
  annualWithdrawn : ℤ
  remainingBalance : ℤ
  totalWithdrawn : ℤ
  realBalance : Option ℤ
  deriving Repr, DecidableEq

/-- One iteration of the inner `for month in range(12)` loop of
`swp_calculator` (lines 167-176).  The state is
`(current_balance, total_withdrawn, year_withdrawn)`. -/
def swpMonth (mr w : ℚ) (st : ℚ × ℚ × ℚ) : ℚ × ℚ × ℚ :=
  if 0 < st.1 then
    let b := st.1 * (1 + mr)
    let wd := min w b
    (b - wd, st.2.1 + wd, st.2.2 + wd)
  else st

/-- The inner month loop, iterated. -/
def swpMonths (mr w : ℚ) : ℕ → ℚ × ℚ × ℚ → ℚ × ℚ × ℚ
  | 0, st => st
  | n + 1, st => swpMonths mr w n (swpMonth mr w st)

/-- One loop iteration of `swp_calculator` (lines 155-194), without the
terminal `break` test.  The state is
`(current_balance, total_withdrawn, current_monthly_withdrawal)`. -/
def swpStep (mr infl : ℚ) (enable : Bool) (freq : String) (pct : ℚ)
    (year : ℕ) (st : ℚ × ℚ × ℚ) : (ℚ × ℚ × ℚ) × SWPRow :=
  let w := stepUpMonthly enable freq pct year st.2.2
  let m := swpMonths mr w 12 (st.1, st.2.1, 0)
  let b := m.1
  let tw := m.2.1
  let yw := m.2.2
  let rb := if 0 < infl then b / (1 + infl / 100) ^ year else b
  let rw := if 0 < infl then tw / (1 + infl / 100) ^ year else tw
  ((b, tw, w), ⟨year, 2025 + year, w, yw, b, tw, rb, rw⟩)

/-- The `for year in range(1, years+1)` loop of `swp_calculator`
(lines 155-197): the record is appended, then the loop `break`s if the
year-end balance is `≤ 0` (line 196). -/
def swpLoop (mr infl : ℚ) (enable : Bool) (freq : String) (pct : ℚ) :
    ℕ → ℕ → ℚ × ℚ × ℚ → List SWPRow
  | _, 0, _ => []
  | year, n + 1, st =>
    let p := swpStep mr infl enable freq pct year st
    if p.2.remainingBalance ≤ 0 then [p.2]
    else p.2 :: swpLoop mr infl enable freq pct (year + 1) n p.1

/-- `swp_calculator` up to the `int` quantization. -/
def swp_calculator_raw (initial withdrawal rate : ℚ) (years : ℕ) (infl : ℚ)
    (enable : Bool) (freq : String) (pct : ℚ) : List SWPRow :=
  swpLoop (rate / (12 * 100)) infl enable (normFreq freq) pct 1 years
    (initial, 0, withdrawal)

/-- The quantization applied at lines 186-194. -/
def quantizeSWP (infl : ℚ) (r : SWPRow) : SWPRecord :=
  ⟨r.period, r.year, truncZ r.monthlyWithdrawal, truncZ r.annualWithdrawn,
   truncZ r.remainingBalance, truncZ r.totalWithdrawn,
   if 0 < infl then some (truncZ r.realBalance) else none⟩

/-- `MutualFundCalculator.swp_calculator` (lines 132-199). -/
def swp_calculator (initial withdrawal rate : ℚ) (years : ℕ) (infl : ℚ)
    (enable : Bool) (freq : String) (pct : ℚ) : List SWPRecord :=
  (swp_calculator_raw initial withdrawal rate years infl enable freq pct).map
    (quantizeSWP infl)

/-! ## CAGR -/

/-- `MutualFundCalculator.calculate_cagr` (lines 201-205), over `ℝ` since the
exponent `1/years` is a real power. -/
noncomputable def calculate_cagr (initial final : ℝ) (years : ℝ) : ℝ :=
  if initial ≤ 0 ∨ final ≤ 0 ∨ years ≤ 0 then 0
  else ((final / initial) ^ ((1 : ℝ) / years) - 1) * 100

/-! ## The stateless calculator class -/

/-- The `MutualFundCalculator` class: its `__init__` stores nothing, so the
object carries no fields at all. -/
structure MutualFundCalculator where

/-- Method view of `one_time_investment`: the receiver carries no state. -/
def MutualFundCalculator.oneTime (_c : MutualFundCalculator)
    (principal rate : ℚ) (years : ℕ) (infl : ℚ) (enable : Bool) (freq : String)
    (amt : ℚ) : List OneTimeRecord :=
  one_time_investment principal rate years infl enable freq amt

/-- Method view of `sip_calculator`. -/
def MutualFundCalculator.sip (_c : MutualFundCalculator)
    (monthly rate : ℚ) (years : ℕ) (infl : ℚ) (enable : Bool) (freq : String)
    (pct : ℚ) : List SIPRecord :=
  sip_calculator monthly rate years infl enable freq pct

/-- Method view of `swp_calculator`. -/
def MutualFundCalculator.swp (_c : MutualFundCalculator)
    (initial withdrawal rate : ℚ) (years : ℕ) (infl : ℚ) (enable : Bool)
    (freq : String) (pct : ℚ) : List SWPRecord :=
  swp_calculator initial withdrawal rate years infl enable freq pct

/-- Method view of `calculate_cagr`. -/
noncomputable def MutualFundCalculator.cagr (_c : MutualFundCalculator)
    (initial final years : ℝ) : ℝ :=
  calculate_cagr initial final years

/-! ## Theorems -/

set_option maxRecDepth 8000 in
set_option maxHeartbeats 2000000 in
/-- **C2**: with step-up enabled over a 10-year run at frequency
`"Every 3 years"`, OneTime adds its additional amount exactly in the years
`y % 3 = 0` (periods 3, 6, 9), while SIP and SWP multiply the running monthly
amount exactly in the years `y > 1 ∧ (y - 1) % 3 = 0` (periods 4, 7, 10): the
monthly amount doubles (step-up 100%) exactly after periods 3, 6 and 9, giving
the trajectory `[1,1,1,2,2,2,4,4,4,8]`; the two trigger-year sets differ. -/
theorem every3_trigger_asymmetry :
    ((List.range' 1 10).filter
        (fun y => oneTimeAdditional true "every_3_years" 1 y ≠ 0) = [3, 6, 9])
    ∧ ((one_time_investment_raw 1 0 10 0 true "Every 3 years" 1).map
        (fun r => r.additionalInvestment) = [0, 0, 1, 0, 0, 1, 0, 0, 1, 0])
    ∧ (((one_time_investment_raw 1 0 10 0 true "Every 3 years" 1).filter
        (fun r => r.additionalInvestment ≠ 0)).map (fun r => r.period) = [3, 6, 9])
    ∧ ((List.range' 1 10).filter
        (fun y => stepUpMonthly true "every_3_years" 100 y 1 ≠ 1) = [4, 7, 10])
    ∧ ((sip_calculator_raw 1 0 10 0 true "Every 3 years" 100).map
        (fun r => r.monthlySIP) = [1, 1, 1, 2, 2, 2, 4, 4, 4, 8])
    ∧ ((swp_calculator_raw 1000 1 0 10 0 true "Every 3 years" 100).map
        (fun r => r.monthlyWithdrawal) = [1, 1, 1, 2, 2, 2, 4, 4, 4, 8])
    ∧ ([3, 6, 9] : List ℕ) ≠ [4, 7, 10] := by
  have hn : normFreq "Every 3 years" = "every_3_years" := by norm_num +decide [normFreq]
  have e1 : swpStep 0 0 true "every_3_years" 100 1 (1000, 0, 1)
      = ((988, 12, 1), (⟨1, 2026, 1, 12, 988, 12, 988, 12⟩ : SWPRow)) := by
    norm_num +decide [swpStep, swpMonths, swpMonth, stepUpMonthly]
  have e2 : swpStep 0 0 true "every_3_years" 100 2 (988, 12, 1)
      = ((976, 24, 1), (⟨2, 2027, 1, 12, 976, 24, 976, 24⟩ : SWPRow)) := by
    norm_num +decide [swpStep, swpMonths, swpMonth, stepUpMonthly]
  have e3 : swpStep 0 0 true "every_3_years" 100 3 (976, 24, 1)
      = ((964, 36, 1), (⟨3, 2028, 1, 12, 964, 36, 964, 36⟩ : SWPRow)) := by
    norm_num +decide [swpStep, swpMonths, swpMonth, stepUpMonthly]
  have e4 : swpStep 0 0 true "every_3_years" 100 4 (964, 36, 1)
      = ((940, 60, 2), (⟨4, 2029, 2, 24, 940, 60, 940, 60⟩ : SWPRow)) := by
    norm_num +decide [swpStep, swpMonths, swpMonth, stepUpMonthly]
  have e5 : swpStep 0 0 true "every_3_years" 100 5 (940, 60, 2)
      = ((916, 84, 2), (⟨5, 2030, 2, 24, 916, 84, 916, 84⟩ : SWPRow)) := by
    norm_num +decide [swpStep, swpMonths, swpMonth, stepUpMonthly]
  have e6 : swpStep 0 0 true "every_3_years" 100 6 (916, 84, 2)
      = ((892, 108, 2), (⟨6, 2031, 2, 24, 892, 108, 892, 108⟩ : SWPRow)) := by
    norm_num +decide [swpStep, swpMonths, swpMonth, stepUpMonthly]
  have e7 : swpStep 0 0 true "every_3_years" 100 7 (892, 108, 2)
      = ((844, 156, 4), (⟨7, 2032, 4, 48, 844, 156, 844, 156⟩ : SWPRow)) := by
    norm_num +decide [swpStep, swpMonths, swpMonth, stepUpMonthly]
  have e8 : swpStep 0 0 true "every_3_years" 100 8 (844, 156, 4)
      = ((796, 204, 4), (⟨8, 2033, 4, 48, 796, 204, 796, 204⟩ : SWPRow)) := by
    norm_num +decide [swpStep, swpMonths, swpMonth, stepUpMonthly]
  have e9 : swpStep 0 0 true "every_3_years" 100 9 (796, 204, 4)
      = ((748, 252, 4), (⟨9, 2034, 4, 48, 748, 252, 748, 252⟩ : SWPRow)) := by
    norm_num +decide [swpStep, swpMonths, swpMonth, stepUpMonthly]
  have e10 : swpStep 0 0 true "every_3_years" 100 10 (748, 252, 4)
      = ((652, 348, 8), (⟨10, 2035, 8, 96, 652, 348, 652, 348⟩ : SWPRow)) := by
    norm_num +decide [swpStep, swpMonths, swpMonth, stepUpMonthly]
  refine ⟨?_, ?_, ?_, ?_, ?_, ?_, by decide⟩
  · norm_num +decide [List.range', List.filter, oneTimeAdditional]
  · norm_num +decide [one_time_investment_raw, oneTimeLoop, oneTimeStep,
      oneTimeAdditional, normFreq]
  · norm_num +decide [one_time_investment_raw, oneTimeLoop, oneTimeStep,
      oneTimeAdditional, normFreq, List.filter]
  · norm_num +decide [List.range', List.filter, stepUpMonthly]
  · norm_num +decide [sip_calculator_raw, sipLoop, sipStep, sipMonths,
      stepUpMonthly, normFreq]
  · norm_num +decide [swp_calculator_raw, swpLoop, hn, e1, e2, e3, e4, e5, e6,
      e7, e8, e9, e10]

/-- **C4, counterexample**: `sip_calculator 10000 12 1 0` yields
`totalInvested = 120000` but `finalAmount = 128093`, not approximately
127,288 — the exact year-end value exceeds 127,288 by more than 800. -/
theorem sip_example_value_cex :
    ((sip_calculator 10000 12 1 0 false "yearly" 0).map
        (fun r => (r.totalInvested, r.finalAmount)) = [(120000, 128093)])
    ∧ ((sip_calculator_raw 10000 12 1 0 false "yearly" 0).map
        (fun r => decide (800 < r.finalAmount - 127288)) = [true])
    ∧ (127288 : ℤ) ≠ 128093 := by
  refine ⟨?_, ?_, by decide⟩ <;>
    norm_num +decide [sip_calculator, sip_calculator_raw, sipLoop, sipStep, sipMonths,
      stepUpMonthly, normFreq, quantizeSIP, truncZ, round2]

/-- **C4, amended**: the one-year SIP projection at `monthlyAmount = 10000`,
`rate = 12`, `inflationRate = 0`, step-up disabled yields a single record with
`totalInvested = 120000` and `finalAmount = 128093` (truncation of the exact
annuity-due value `10000 · 1.01 · (1.01¹² − 1)/0.01 ≈ 128093.3`, each monthly
contribution added before that month's 1% growth). -/
theorem sip_one_year_example :
    ((sip_calculator 10000 12 1 0 false "yearly" 0).map
        (fun r => (r.totalInvested, r.finalAmount)) = [(120000, 128093)])
    ∧ ((sip_calculator_raw 10000 12 1 0 false "yearly" 0).map
        (fun r => r.finalAmount)
      = [10000 * ((101 : ℚ)/100) * (((101 : ℚ)/100) ^ 12 - 1) / (1/100)]) := by
  constructor <;>
    norm_num +decide [sip_calculator, sip_calculator_raw, sipLoop, sipStep, sipMonths,
      stepUpMonthly, normFreq, quantizeSIP, truncZ, round2]

/-- **C5**: `calculate_cagr` returns `((final/initial)^(1/years) − 1) · 100`
when all three arguments are positive and `0` whenever `initial ≤ 0`,
`final ≤ 0` or `years ≤ 0`; in particular `CAGR(100000, 200000, 1) = 100` and
`CAGR(0, 100, 5) = 0`. -/
theorem calculate_cagr_spec (iv fv y : ℝ) :
    (iv ≤ 0 ∨ fv ≤ 0 ∨ y ≤ 0 → calculate_cagr iv fv y = 0)
    ∧ (0 < iv → 0 < fv → 0 < y →
        calculate_cagr iv fv y = ((fv / iv) ^ ((1 : ℝ) / y) - 1) * 100)
    ∧ calculate_cagr 100000 200000 1 = 100
    ∧ calculate_cagr 0 100 5 = 0 := by
  refine ⟨fun h => by rw [calculate_cagr, if_pos h], fun h1 h2 h3 => ?_, ?_, ?_⟩
  · rw [calculate_cagr, if_neg]
    push_neg
    exact ⟨h1, h2, h3⟩
  · rw [calculate_cagr, if_neg (by push_neg; norm_num)]
    norm_num
  · rw [calculate_cagr, if_pos (Or.inl le_rfl)]

/-- **C5, witness**: the CAGR specification applied at the two concrete
example inputs. -/
theorem calculate_cagr_spec_witness :
    calculate_cagr 0 100 5 = 0
    ∧ calculate_cagr 100000 200000 1
      = (((200000 : ℝ) / 100000) ^ ((1 : ℝ) / 1) - 1) * 100 :=
  ⟨(calculate_cagr_spec 0 100 5).1 (Or.inl le_rfl),
   (calculate_cagr_spec 100000 200000 1).2.1 (by norm_num) (by norm_num)
     (by norm_num)⟩

/-- **C7**: the four operations are pure functions of their arguments: the
`MutualFundCalculator` receiver carries no state, so any two calculator
objects (and hence any two calls with identical inputs) produce identical
results. -/
theorem calculator_pure (c₁ c₂ : MutualFundCalculator) :
    (∀ p r ys infl en f amt,
        c₁.oneTime p r ys infl en f amt = c₂.oneTime p r ys infl en f amt)
    ∧ (∀ m r ys infl en f pct,
        c₁.sip m r ys infl en f pct = c₂.sip m r ys infl en f pct)
    ∧ (∀ i w r ys infl en f pct,
        c₁.swp i w r ys infl en f pct = c₂.swp i w r ys infl en f pct)
    ∧ (∀ iv fv y, c₁.cagr iv fv y = c₂.cagr iv fv y) :=
  ⟨fun _ _ _ _ _ _ _ => rfl, fun _ _ _ _ _ _ _ => rfl,
   fun _ _ _ _ _ _ _ _ => rfl, fun _ _ _ => rfl⟩

/-! ### Loop-shape lemmas -/

theorem oneTimeLoop_map_period (rate infl : ℚ) (en : Bool) (f : String)
    (amt : ℚ) :
    ∀ (n year : ℕ) (st : ℚ × ℚ),
      (oneTimeLoop rate infl en f amt year n st).map (fun r => r.period)
        = List.range' year n := by
  intro n
  induction n with
  | zero => intro year st; rfl
  | succ n ih =>
    intro year st
    simp [oneTimeLoop, oneTimeStep, List.range'_succ, ih]

theorem sipLoop_map_period (mr infl : ℚ) (en : Bool) (f : String) (pct : ℚ) :
    ∀ (n year : ℕ) (st : ℚ × ℚ × ℚ),
      (sipLoop mr infl en f pct year n st).map (fun r => r.period)
        = List.range' year n := by
  intro n
  induction n with
  | zero => intro year st; rfl
  | succ n ih =>
    intro year st
    simp [sipLoop, sipStep, List.range'_succ, ih]

theorem swpLoop_ne_nil (mr infl : ℚ) (en : Bool) (f : String) (pct : ℚ)
    (n year : ℕ) (st : ℚ × ℚ × ℚ) (hn : 0 < n) :
    swpLoop mr infl en f pct year n st ≠ [] := by
  cases n with
  | zero => exact absurd hn (by simp)
  | succ n =>
    simp only [swpLoop]
    split <;> simp

theorem swpLoop_shape (mr infl : ℚ) (en : Bool) (f : String) (pct : ℚ) :
    ∀ (n year : ℕ) (st : ℚ × ℚ × ℚ),
      ((swpLoop mr infl en f pct year n st).map (fun r => r.period)
          = List.range' year (swpLoop mr infl en f pct year n st).length)
      ∧ (swpLoop mr infl en f pct year n st).length ≤ n
      ∧ (∀ i : ℕ, i + 1 < (swpLoop mr infl en f pct year n st).length →
          ∀ r ∈ (swpLoop mr infl en f pct year n st)[i]?, 0 < r.remainingBalance)
      ∧ ((swpLoop mr infl en f pct year n st).length < n →
          ∀ r ∈ (swpLoop mr infl en f pct year n st).getLast?,
            r.remainingBalance ≤ 0) := by
  intro n
  induction n with
  | zero =>
    intro year st
    refine ⟨rfl, Nat.le_refl 0, fun i hi => ?_, fun h => ?_⟩
    · simp [swpLoop] at hi
    · simp [swpLoop] at h
  | succ n ih =>
    intro year st
    by_cases hb : (swpStep mr infl en f pct year st).2.remainingBalance ≤ 0
    · have hL : swpLoop mr infl en f pct year (n + 1) st
          = [(swpStep mr infl en f pct year st).2] := by
        simp only [swpLoop, if_pos hb]
      have hp : (swpStep mr infl en f pct year st).2.period = year := by
        simp [swpStep]
      refine ⟨?_, ?_, ?_, ?_⟩
      · simp [hL, hp, List.range']
      · simp [hL]
      · intro i hi
        simp [hL] at hi
      · intro _ r hr
        simp [hL] at hr
        simpa [hr] using hb
    · have hL : swpLoop mr infl en f pct year (n + 1) st
          = (swpStep mr infl en f pct year st).2
            :: swpLoop mr infl en f pct (year + 1) n
              (swpStep mr infl en f pct year st).1 := by
        simp only [swpLoop, if_neg hb]
      have hp : (swpStep mr infl en f pct year st).2.period = year := by
        simp [swpStep]
      obtain ⟨ih1, ih2, ih3, ih4⟩ := ih (year + 1) (swpStep mr infl en f pct year st).1
      refine ⟨?_, ?_, ?_, ?_⟩
      · simp [hL, hp, ih1, List.range'_succ]
      · simp only [hL, List.length_cons]
        exact Nat.succ_le_succ ih2
      · intro i hi r hr
        match i with
        | 0 =>
          simp [hL] at hr
          rw [← hr]
          exact lt_of_not_le hb
        | i + 1 =>
          simp only [hL, List.length_cons, Nat.add_lt_add_iff_right] at hi
          simp only [hL, List.getElem?_cons_succ] at hr
          exact ih3 i hi r hr
      · intro hlen r hr
        simp only [hL, List.length_cons, Nat.add_lt_add_iff_right] at hlen
        have hne : swpLoop mr infl en f pct (year + 1) n
            (swpStep mr infl en f pct year st).1 ≠ [] :=
          swpLoop_ne_nil mr infl en f pct n (year + 1) _
            (Nat.lt_of_le_of_lt (Nat.zero_le _) hlen)
        obtain ⟨a, t, ht⟩ := List.exists_cons_of_ne_nil hne
        rw [hL, ht, List.getLast?_cons_cons] at hr
        refine ih4 hlen r ?_
        rw [ht]
        exact hr

/-- **C3**: for every input, OneTime and SIP emit exactly `years` records with
periods `1..years` in increasing order; SWP emits records for consecutive
periods starting at 1, has at most `years` records (the quantized result and
the raw row list have the same length), every non-final record has a positive
year-end balance (the loop `break`s immediately after the first record with
balance `≤ 0`), and if the result is shorter than `years` its final record's
balance is `≤ 0`. -/
theorem result_lengths (principal monthly initial withdrawal rate : ℚ)
    (years : ℕ) (infl : ℚ) (en : Bool) (f : String) (amt pct : ℚ) :
    ((one_time_investment principal rate years infl en f amt).map
        (fun r => r.period) = List.range' 1 years
      ∧ (one_time_investment principal rate years infl en f amt).length = years)
    ∧ ((sip_calculator monthly rate years infl en f pct).map
        (fun r => r.period) = List.range' 1 years
      ∧ (sip_calculator monthly rate years infl en f pct).length = years)
    ∧ ((swp_calculator_raw initial withdrawal rate years infl en f pct).map
          (fun r => r.period)
        = List.range' 1
            (swp_calculator_raw initial withdrawal rate years infl en f pct).length
      ∧ (swp_calculator_raw initial withdrawal rate years infl en f pct).length
          ≤ years
      ∧ (swp_calculator initial withdrawal rate years infl en f pct).length
          = (swp_calculator_raw initial withdrawal rate years infl en f pct).length
      ∧ (∀ i : ℕ,
          i + 1
              < (swp_calculator_raw initial withdrawal rate years infl en f pct).length →
          ∀ r ∈ (swp_calculator_raw initial withdrawal rate years infl en f pct)[i]?,
            0 < r.remainingBalance)
      ∧ ((swp_calculator_raw initial withdrawal rate years infl en f pct).length
            < years →
          ∀ r ∈ (swp_calculator_raw initial withdrawal rate years infl en f pct).getLast?,
            r.remainingBalance ≤ 0)) := by
  obtain ⟨s1, s2, s3, s4⟩ := swpLoop_shape (rate / (12 * 100)) infl en (normFreq f)
    pct years 1 (initial, 0, withdrawal)
  have hot := oneTimeLoop_map_period rate infl en (normFreq f) amt years 1
    (principal, principal)
  have hsip := sipLoop_map_period (rate / (12 * 100)) infl en (normFreq f) pct
    years 1 (0, 0, monthly)
  refine ⟨⟨?_, ?_⟩, ⟨?_, ?_⟩, ?_, ?_, ?_, ?_, ?_⟩
  · simp only [one_time_investment, one_time_investment_raw, List.map_map]
    exact hot
  · have := congrArg List.length hot
    simpa [one_time_investment, one_time_investment_raw] using this
  · simp only [sip_calculator, sip_calculator_raw, List.map_map]
    exact hsip
  · have := congrArg List.length hsip
    simpa [sip_calculator, sip_calculator_raw] using this
  · exact s1
  · exact s2
  · simp [swp_calculator]
  · exact s3
  · exact s4

/-- **C3, witness**: applied to the depleting plan `initial = 100`,
`monthlyWithdrawal = 100`, `rate = 0`, `years = 2`: the run stops after one
record, whose balance is `≤ 0`. -/
theorem result_lengths_witness :
    SWPRow.remainingBalance ⟨1, 2026, 100, 100, 0, 100, 0, 100⟩ ≤ 0 :=
  (result_lengths 1 1 100 100 0 2 0 false "yearly" 0 0).2.2.2.2.2.2
    (by norm_num +decide [swp_calculator_raw, swpLoop, swpStep, swpMonths,
      swpMonth, stepUpMonthly, normFreq])
    ⟨1, 2026, 100, 100, 0, 100, 0, 100⟩
    (by norm_num +decide [swp_calculator_raw, swpLoop, swpStep, swpMonths,
      swpMonth, stepUpMonthly, normFreq, Option.mem_def])

/-! ### Zero-rate lemmas -/

theorem oneTimeLoop_zero_rate (infl : ℚ) (en : Bool) (f : String) (amt : ℚ) :
    ∀ (n year : ℕ) (st : ℚ × ℚ), st.1 = st.2 →
      ∀ r ∈ oneTimeLoop 0 infl en f amt year n st,
        r.finalAmount = r.totalPrincipal := by
  intro n
  induction n with
  | zero => intro year st _ r hr; simp [oneTimeLoop] at hr
  | succ n ih =>
    intro year st hst r hr
    simp only [oneTimeLoop, List.mem_cons] at hr
    rcases hr with hr | hr
    · subst hr
      show (st.1 + oneTimeAdditional en f amt year) * (1 + 0 / 100)
        = st.2 + oneTimeAdditional en f amt year
      rw [hst]
      norm_num
    · refine ih (year + 1) _ ?_ r hr
      show (st.1 + oneTimeAdditional en f amt year) * (1 + 0 / 100)
        = st.2 + oneTimeAdditional en f amt year
      rw [hst]
      norm_num

/-- **C6**: with `rate = 0` every record of `one_time_investment` (raw and
emitted) satisfies `finalAmount = totalPrincipal`, for any step-up
configuration and inflation rate. -/
theorem one_time_zero_rate (principal : ℚ) (years : ℕ) (infl : ℚ) (en : Bool)
    (f : String) (amt : ℚ) :
    (∀ r ∈ one_time_investment_raw principal 0 years infl en f amt,
        r.finalAmount = r.totalPrincipal)
    ∧ (∀ r ∈ one_time_investment principal 0 years infl en f amt,
        r.finalAmount = r.totalPrincipal) := by
  have hraw := oneTimeLoop_zero_rate infl en (normFreq f) amt years 1
    (principal, principal) rfl
  refine ⟨hraw, ?_⟩
  intro r hr
  simp only [one_time_investment, List.mem_map] at hr
  obtain ⟨a, ha, rfl⟩ := hr
  have h := hraw a ha
  simp [quantizeOneTime, h]

/-- **C6, witness**: the zero-rate identity applied at `principal = 100`,
`years = 1`: the single emitted record has `finalAmount = totalPrincipal`. -/
theorem one_time_zero_rate_witness :
    OneTimeRecord.finalAmount ⟨1, 2026, 100, 0, 100, 0, 0, none⟩
      = OneTimeRecord.totalPrincipal ⟨1, 2026, 100, 0, 100, 0, 0, none⟩ :=
  (one_time_zero_rate 100 1 0 false "yearly" 0).2 _
    (by norm_num +decide [one_time_investment, one_time_investment_raw,
      oneTimeLoop, oneTimeStep, oneTimeAdditional, normFreq, quantizeOneTime,
      truncZ, round2])

/-! ### Step-up no-op lemmas -/

theorem oneTimeAdditional_enable_irrel (f : String) (amt : ℚ) (hamt : amt ≤ 0)
    (year : ℕ) :
    oneTimeAdditional true f amt year = oneTimeAdditional false f amt year := by
  simp [oneTimeAdditional, not_lt.2 hamt]

theorem stepUpMonthly_enable_irrel (f : String) (pct : ℚ) (hpct : pct ≤ 0)
    (year : ℕ) (cur : ℚ) :
    stepUpMonthly true f pct year cur = stepUpMonthly false f pct year cur := by
  simp [stepUpMonthly, not_lt.2 hpct]

theorem oneTimeLoop_enable_irrel (rate infl : ℚ) (f : String) (amt : ℚ)
    (hamt : amt ≤ 0) :
    ∀ (n year : ℕ) (st : ℚ × ℚ),
      oneTimeLoop rate infl true f amt year n st
        = oneTimeLoop rate infl false f amt year n st := by
  intro n
  induction n with
  | zero => intro year st; rfl
  | succ n ih =>
    intro year st
    simp only [oneTimeLoop, oneTimeStep,
      oneTimeAdditional_enable_irrel f amt hamt, ih]

theorem sipLoop_enable_irrel (mr infl : ℚ) (f : String) (pct : ℚ)
    (hpct : pct ≤ 0) :
    ∀ (n year : ℕ) (st : ℚ × ℚ × ℚ),
      sipLoop mr infl true f pct year n st
        = sipLoop mr infl false f pct year n st := by
  intro n
  induction n with
  | zero => intro year st; rfl
  | succ n ih =>
    intro year st
    simp only [sipLoop, sipStep, stepUpMonthly_enable_irrel f pct hpct, ih]

theorem swpLoop_enable_irrel (mr infl : ℚ) (f : String) (pct : ℚ)
    (hpct : pct ≤ 0) :
    ∀ (n year : ℕ) (st : ℚ × ℚ × ℚ),
      swpLoop mr infl true f pct year n st
        = swpLoop mr infl false f pct year n st := by
  intro n
  induction n with
  | zero => intro year st; rfl
  | succ n ih =>
    intro year st
    simp only [swpLoop, swpStep, stepUpMonthly_enable_irrel f pct hpct, ih]

/-- **C9**: enabling the step-up with a non-positive magnitude has no effect:
with `increase_amount ≤ 0` (OneTime) or `increase_percentage ≤ 0` (SIP/SWP),
each simulator returns exactly the same result as with the step-up disabled. -/
theorem step_up_noop_nonpositive (principal monthly initial withdrawal rate : ℚ)
    (years : ℕ) (infl : ℚ) (f : String) (amt pct : ℚ)
    (hamt : amt ≤ 0) (hpct : pct ≤ 0) :
    one_time_investment principal rate years infl true f amt
        = one_time_investment principal rate years infl false f amt
    ∧ sip_calculator monthly rate years infl true f pct
        = sip_calculator monthly rate years infl false f pct
    ∧ swp_calculator initial withdrawal rate years infl true f pct
        = swp_calculator initial withdrawal rate years infl false f pct := by
  refine ⟨?_, ?_, ?_⟩
  · simp only [one_time_investment, one_time_investment_raw,
      oneTimeLoop_enable_irrel rate infl (normFreq f) amt hamt]
  · simp only [sip_calculator, sip_calculator_raw,
      sipLoop_enable_irrel (rate / (12 * 100)) infl (normFreq f) pct hpct]
  · simp only [swp_calculator, swp_calculator_raw,
      swpLoop_enable_irrel (rate / (12 * 100)) infl (normFreq f) pct hpct]

/-- **C9, witness**: at magnitude 0 the enabled and disabled runs coincide for
all three simulators at concrete inputs. -/
theorem step_up_noop_nonpositive_witness :
    one_time_investment 100 10 2 0 true "yearly" 0
        = one_time_investment 100 10 2 0 false "yearly" 0
    ∧ sip_calculator 100 10 2 0 true "yearly" 0
        = sip_calculator 100 10 2 0 false "yearly" 0
    ∧ swp_calculator 100 10 10 2 0 true "yearly" 0
        = swp_calculator 100 10 10 2 0 false "yearly" 0 :=
  step_up_noop_nonpositive 100 100 100 10 10 2 0 "yearly" 0 0 le_rfl le_rfl

/-! ### SWP balance invariant -/

theorem swpMonth_balance_nonneg (mr w : ℚ) (_hmr : 0 ≤ mr) (st : ℚ × ℚ × ℚ)
    (h : 0 ≤ st.1) : 0 ≤ (swpMonth mr w st).1 := by
  rw [swpMonth]
  split
  · dsimp only
    have hmin : min w (st.1 * (1 + mr)) ≤ st.1 * (1 + mr) := min_le_right _ _
    linarith
  · exact h

theorem swpMonths_balance_nonneg (mr w : ℚ) (hmr : 0 ≤ mr) :
    ∀ (n : ℕ) (st : ℚ × ℚ × ℚ), 0 ≤ st.1 → 0 ≤ (swpMonths mr w n st).1 := by
  intro n
  induction n with
  | zero => intro st h; exact h
  | succ n ih => intro st h; exact ih _ (swpMonth_balance_nonneg mr w hmr st h)

theorem swpLoop_balance_nonneg (mr infl : ℚ) (en : Bool) (f : String)
    (pct : ℚ) (hmr : 0 ≤ mr) :
    ∀ (n year : ℕ) (st : ℚ × ℚ × ℚ), 0 ≤ st.1 →
      ∀ r ∈ swpLoop mr infl en f pct year n st, 0 ≤ r.remainingBalance := by
  intro n
  induction n with
  | zero => intro year st _ r hr; simp [swpLoop] at hr
  | succ n ih =>
    intro year st h r hr
    have hb : 0 ≤ (swpStep mr infl en f pct year st).2.remainingBalance :=
      swpMonths_balance_nonneg mr _ hmr 12 (st.1, st.2.1, 0) h
    simp only [swpLoop] at hr
    by_cases hbr : (swpStep mr infl en f pct year st).2.remainingBalance ≤ 0
    · rw [if_pos hbr] at hr
      simp only [List.mem_singleton] at hr
      subst hr
      exact hb
    · rw [if_neg hbr] at hr
      rcases List.mem_cons.mp hr with hr | hr
      · subst hr
        exact hb
      · exact ih (year + 1) (swpStep mr infl en f pct year st).1
          (le_of_lt (lt_of_not_le hbr)) r hr

/-- **C8**: the SWP balance never becomes negative (each monthly withdrawal is
capped at the available balance): for `initial ≥ 0` and `rate ≥ 0`, every raw
row and every emitted record has `remainingBalance ≥ 0`, and any row whose
balance is `≤ 0` (in particular the terminal row of a depleted plan) has
balance exactly 0. -/
theorem swp_balance_nonneg (initial withdrawal rate : ℚ) (years : ℕ)
    (infl : ℚ) (en : Bool) (f : String) (pct : ℚ)
    (h0 : 0 ≤ initial) (hrate : 0 ≤ rate) :
    (∀ r ∈ swp_calculator_raw initial withdrawal rate years infl en f pct,
        0 ≤ r.remainingBalance
        ∧ (r.remainingBalance ≤ 0 → r.remainingBalance = 0))
    ∧ (∀ r ∈ swp_calculator initial withdrawal rate years infl en f pct,
        0 ≤ r.remainingBalance) := by
  have hmr : (0:ℚ) ≤ rate / (12 * 100) := by positivity
  have hraw := swpLoop_balance_nonneg (rate / (12 * 100)) infl en (normFreq f)
    pct hmr years 1 (initial, 0, withdrawal) h0
  refine ⟨fun r hrm => ⟨hraw r hrm, fun hle => le_antisymm hle (hraw r hrm)⟩, ?_⟩
  intro r hrm
  simp only [swp_calculator, List.mem_map] at hrm
  obtain ⟨a, ha, rfl⟩ := hrm
  have h1 := hraw a ha
  show 0 ≤ truncZ a.remainingBalance
  rw [truncZ, if_pos h1]
  exact Int.floor_nonneg.mpr h1

/-- **C8, witness**: the invariant applied to a plan that depletes in its
first year: the emitted row's balance is `≥ 0` and, being `≤ 0`, exactly 0. -/
theorem swp_balance_nonneg_witness :
    0 ≤ SWPRow.remainingBalance ⟨1, 2026, 100, 100, 0, 100, 0, 100⟩
    ∧ (SWPRow.remainingBalance ⟨1, 2026, 100, 100, 0, 100, 0, 100⟩ ≤ 0 →
        SWPRow.remainingBalance ⟨1, 2026, 100, 100, 0, 100, 0, 100⟩ = 0) :=
  (swp_balance_nonneg 100 100 0 1 0 false "yearly" 0 (by norm_num)
      (by norm_num)).1 _
    (by norm_num +decide [swp_calculator_raw, swpLoop, swpStep, swpMonths,
      swpMonth, stepUpMonthly, normFreq])

/-! ### Inflation-adjustment lemmas -/

theorem oneTimeAdditional_nonneg (en : Bool) (f : String) (amt : ℚ)
    (year : ℕ) : 0 ≤ oneTimeAdditional en f amt year := by
  rw [oneTimeAdditional]
  split_ifs with h1 h2 h3 h4
  · exact le_of_lt h1.2
  · exact le_of_lt h1.2
  · exact le_of_lt h1.2
  · exact le_rfl
  · exact le_rfl

theorem oneTimeLoop_real_value (rate infl : ℚ) (en : Bool) (f : String)
    (amt : ℚ) (hrate : 0 ≤ rate) :
    ∀ (n year : ℕ) (st : ℚ × ℚ), 0 < st.1 → 1 ≤ year →
      ∀ r ∈ oneTimeLoop rate infl en f amt year n st,
        0 < r.finalAmount
        ∧ (infl = 0 → r.realValue = r.finalAmount)
        ∧ (0 < infl → r.realValue < r.finalAmount) := by
  intro n
  induction n with
  | zero => intro year st _ _ r hr; simp [oneTimeLoop] at hr
  | succ n ih =>
    intro year st hst hyear r hr
    have hca : 0 < (st.1 + oneTimeAdditional en f amt year) * (1 + rate / 100) := by
      have h1 := oneTimeAdditional_nonneg en f amt year
      have h2 : (0:ℚ) ≤ rate / 100 := by positivity
      have h3 : (0:ℚ) < 1 + rate / 100 := by linarith
      exact mul_pos (by linarith) h3
    simp only [oneTimeLoop, List.mem_cons] at hr
    rcases hr with hr | hr
    · subst hr
      refine ⟨hca, fun h0 => ?_, fun hinfl => ?_⟩
      · show (if 0 < infl then _ / (1 + infl / 100) ^ year else _) = _
        rw [if_neg (by rw [h0]; exact lt_irrefl 0)]
        rfl
      · have hd : (1:ℚ) < 1 + infl / 100 := by
          have : (0:ℚ) < infl / 100 := by positivity
          linarith
        have hdy : (1:ℚ) < (1 + infl / 100) ^ year :=
          one_lt_pow₀ hd (by omega)
        show (if 0 < infl then _ / (1 + infl / 100) ^ year else _) < _
        rw [if_pos hinfl]
        exact div_lt_self hca hdy
    · exact ih (year + 1) (oneTimeStep rate infl en f amt year st).1 hca
        (by omega) r hr

theorem stepUpMonthly_pos (en : Bool) (f : String) (pct : ℚ) (year : ℕ)
    (cur : ℚ) (h : 0 < cur) : 0 < stepUpMonthly en f pct year cur := by
  rw [stepUpMonthly]
  split_ifs with h1 h2 h3 h4 h5
  all_goals
    first
      | exact h
      | · have hf : (0:ℚ) < 1 + pct / 100 := by
            have := h1.2
            have : (0:ℚ) < pct / 100 := by positivity
            linarith
          exact mul_pos h hf

theorem sipMonths_cv_pos_of_pos (mr sip : ℚ) (hmr : 0 ≤ mr) (hsip : 0 < sip) :
    ∀ (n : ℕ) (st : ℚ × ℚ × ℚ), 0 < st.2.2 → 0 < (sipMonths mr sip n st).2.2 := by
  intro n
  induction n with
  | zero => intro st h; exact h
  | succ n ih =>
    intro st h
    have hcv : 0 < (st.2.2 + sip) * (1 + mr) := mul_pos (by linarith) (by linarith)
    exact ih (st.1 + sip, st.2.1 + sip, (st.2.2 + sip) * (1 + mr)) hcv

theorem sipMonths_cv_pos (mr sip : ℚ) (hmr : 0 ≤ mr) (hsip : 0 < sip)
    (n : ℕ) (hn : 0 < n) (st : ℚ × ℚ × ℚ) (h : 0 ≤ st.2.2) :
    0 < (sipMonths mr sip n st).2.2 := by
  cases n with
  | zero => exact absurd hn (by simp)
  | succ n =>
    have hcv : 0 < (st.2.2 + sip) * (1 + mr) := mul_pos (by linarith) (by linarith)
    exact sipMonths_cv_pos_of_pos mr sip hmr hsip n
      (st.1 + sip, st.2.1 + sip, (st.2.2 + sip) * (1 + mr)) hcv

theorem sipLoop_real_value (mr infl : ℚ) (en : Bool) (f : String) (pct : ℚ)
    (hmr : 0 ≤ mr) :
    ∀ (n year : ℕ) (st : ℚ × ℚ × ℚ), 0 ≤ st.2.1 → 0 < st.2.2 → 1 ≤ year →
      ∀ r ∈ sipLoop mr infl en f pct year n st,
        0 < r.finalAmount
        ∧ (infl = 0 → r.realValue = r.finalAmount)
        ∧ (0 < infl → r.realValue < r.finalAmount) := by
  intro n
  induction n with
  | zero => intro year st _ _ _ r hr; simp [sipLoop] at hr
  | succ n ih =>
    intro year st hcv hsip hyear r hr
    have hsip2 : 0 < stepUpMonthly en f pct year st.2.2 :=
      stepUpMonthly_pos en f pct year st.2.2 hsip
    have hcv2 : 0 < (sipMonths mr (stepUpMonthly en f pct year st.2.2) 12
        (st.1, 0, st.2.1)).2.2 :=
      sipMonths_cv_pos mr _ hmr hsip2 12 (by norm_num) (st.1, 0, st.2.1) hcv
    simp only [sipLoop, List.mem_cons] at hr
    rcases hr with hr | hr
    · subst hr
      refine ⟨hcv2, fun h0 => ?_, fun hinfl => ?_⟩
      · show (if 0 < infl then _ / (1 + infl / 100) ^ year else _) = _
        rw [if_neg (by rw [h0]; exact lt_irrefl 0)]
        rfl
      · have hd : (1:ℚ) < 1 + infl / 100 := by
          have : (0:ℚ) < infl / 100 := by positivity
          linarith
        have hdy : (1:ℚ) < (1 + infl / 100) ^ year := one_lt_pow₀ hd (by omega)
        show (if 0 < infl then _ / (1 + infl / 100) ^ year else _) < _
        rw [if_pos hinfl]
        exact div_lt_self hcv2 hdy
    · exact ih (year + 1) (sipStep mr infl en f pct year st).1
        (le_of_lt hcv2) hsip2 (by omega) r hr

theorem swpLoop_real_balance (mr infl : ℚ) (en : Bool) (f : String) (pct : ℚ)
    (hmr : 0 ≤ mr) :
    ∀ (n year : ℕ) (st : ℚ × ℚ × ℚ), 0 ≤ st.1 → 1 ≤ year →
      ∀ r ∈ swpLoop mr infl en f pct year n st,
        (infl = 0 → r.realBalance = r.remainingBalance)
        ∧ (0 < infl → r.realBalance ≤ r.remainingBalance
            ∧ (0 < r.remainingBalance → r.realBalance < r.remainingBalance)) := by
  intro n
  induction n with
  | zero => intro year st _ _ r hr; simp [swpLoop] at hr
  | succ n ih =>
    intro year st h hyear r hr
    have hb : 0 ≤ (swpMonths mr (stepUpMonthly en f pct year st.2.2) 12
        (st.1, st.2.1, 0)).1 :=
      swpMonths_balance_nonneg mr _ hmr 12 (st.1, st.2.1, 0) h
    have hrow : ∀ hh : r = (swpStep mr infl en f pct year st).2,
        (infl = 0 → r.realBalance = r.remainingBalance)
        ∧ (0 < infl → r.realBalance ≤ r.remainingBalance
            ∧ (0 < r.remainingBalance → r.realBalance < r.remainingBalance)) := by
      intro hh
      subst hh
      refine ⟨fun h0 => ?_, fun hinfl => ?_⟩
      · show (if 0 < infl then _ / (1 + infl / 100) ^ year else _) = _
        rw [if_neg (by rw [h0]; exact lt_irrefl 0)]
        rfl
      · have hd : (1:ℚ) < 1 + infl / 100 := by
          have : (0:ℚ) < infl / 100 := by positivity
          linarith
        have hdy : (1:ℚ) < (1 + infl / 100) ^ year := one_lt_pow₀ hd (by omega)
        constructor
        · show (if 0 < infl then _ / (1 + infl / 100) ^ year else _) ≤ _
          rw [if_pos hinfl]
          exact div_le_self hb (le_of_lt hdy)
        · intro hpos
          show (if 0 < infl then _ / (1 + infl / 100) ^ year else _) < _
          rw [if_pos hinfl]
          exact div_lt_self hpos hdy
    simp only [swpLoop] at hr
    by_cases hbr : (swpStep mr infl en f pct year st).2.remainingBalance ≤ 0
    · rw [if_pos hbr] at hr
      simp only [List.mem_singleton] at hr
      exact hrow hr
    · rw [if_neg hbr] at hr
      rcases List.mem_cons.mp hr with hr | hr
      · exact hrow hr
      · exact ih (year + 1) (swpStep mr infl en f pct year st).1
          (le_of_lt (lt_of_not_le hbr)) (by omega) r hr

/-- **C1, counterexample**: the strict inflation inequality fails for SWP once
the plan depletes: with `initial = 100`, `monthlyWithdrawal = 100`, `rate = 0`,
`years = 1`, `inflationRate = 10`, the single emitted row (period 1 ≥ 1,
inflation > 0) has `remainingBalance = 0` and `realBalance = 0/1.1 = 0`, so the
real balance is not strictly less than the nominal balance. -/
theorem swp_inflation_strictness_cex :
    ¬ (∀ r ∈ swp_calculator_raw 100 100 0 1 10 false "yearly" 0,
        r.realBalance < r.remainingBalance) := by
  intro h
  have hmem : (⟨1, 2026, 100, 100, 0, 100, 0, 1000/11⟩ : SWPRow)
      ∈ swp_calculator_raw 100 100 0 1 10 false "yearly" 0 := by
    norm_num +decide [swp_calculator_raw, swpLoop, swpStep, swpMonths,
      swpMonth, stepUpMonthly, normFreq]
  have h2 := h _ hmem
  norm_num at h2

/-- **C1, amended**: the inflation invariant holds as stated for OneTime
(`principal > 0`, `rate ≥ 0`) and SIP (`monthlyAmount > 0`, `rate ≥ 0`):
the computed real value equals the nominal `finalAmount` when
`inflationRate = 0` and is strictly below it when `inflationRate > 0`.
For SWP (`initial ≥ 0`, `rate ≥ 0`) the real balance equals the nominal
`remainingBalance` when `inflationRate = 0` and is at most the nominal
balance when `inflationRate > 0`, strictly below it only when the nominal
balance is positive (a depleted plan has real = nominal = 0). -/
theorem inflation_invariant_amended
    (principal monthly initial withdrawal rate : ℚ) (years : ℕ) (infl : ℚ)
    (en : Bool) (f : String) (amt pct : ℚ) (hrate : 0 ≤ rate) :
    (0 < principal →
      ∀ r ∈ one_time_investment_raw principal rate years infl en f amt,
        (infl = 0 → r.realValue = r.finalAmount)
        ∧ (0 < infl → r.realValue < r.finalAmount))
    ∧ (0 < monthly →
      ∀ r ∈ sip_calculator_raw monthly rate years infl en f pct,
        (infl = 0 → r.realValue = r.finalAmount)
        ∧ (0 < infl → r.realValue < r.finalAmount))
    ∧ (0 ≤ initial →
      ∀ r ∈ swp_calculator_raw initial withdrawal rate years infl en f pct,
        (infl = 0 → r.realBalance = r.remainingBalance)
        ∧ (0 < infl → r.realBalance ≤ r.remainingBalance
            ∧ (0 < r.remainingBalance → r.realBalance < r.remainingBalance))) := by
  have hmr : (0:ℚ) ≤ rate / (12 * 100) := by positivity
  refine ⟨fun hp r hr => ?_, fun hm r hr => ?_, fun hi r hr => ?_⟩
  · have h := oneTimeLoop_real_value rate infl en (normFreq f) amt hrate years 1
      (principal, principal) hp le_rfl r hr
    exact ⟨h.2.1, h.2.2⟩
  · have h := sipLoop_real_value (rate / (12 * 100)) infl en (normFreq f) pct hmr
      years 1 (0, 0, monthly) le_rfl hm le_rfl r hr
    exact ⟨h.2.1, h.2.2⟩
  · exact swpLoop_real_balance (rate / (12 * 100)) infl en (normFreq f) pct hmr
      years 1 (initial, 0, withdrawal) hi le_rfl r hr

/-- **C1, witness**: the amended invariant applied to
`one_time_investment_raw 100 0 1 10`: the single raw row has
`realValue = 100/1.1 = 1000/11 < 100 = finalAmount`. -/
theorem inflation_invariant_amended_witness :
    OneTimeRow.realValue ⟨1, 2026, 100, 0, 100, 0, 0, 1000/11⟩
      < OneTimeRow.finalAmount ⟨1, 2026, 100, 0, 100, 0, 0, 1000/11⟩ :=
  ((inflation_invariant_amended 100 1 1 1 0 1 10 false "yearly" 0 0
      (by norm_num)).1 (by norm_num) _
    (by norm_num +decide [one_time_investment_raw, oneTimeLoop, oneTimeStep,
      oneTimeAdditional, normFreq])).2 (by norm_num)

/-- **C10**: every emitted record is the quantization of the exact row values:
each monetary field is `truncZ` (truncation toward zero: floor for
non-negative values, ceiling for negative ones, so `|truncZ q| ≤ |q| <
|truncZ q| + 1`) of the internally computed value, the percent field is
`round2` (rounding to two decimal places: within `1/200` of the exact value
and an integer multiple of `1/100`), and the real value is included exactly
when the inflation rate is positive. -/
theorem output_quantization (principal monthly initial withdrawal rate : ℚ)
    (years : ℕ) (infl : ℚ) (en : Bool) (f : String) (amt pct : ℚ) :
    (one_time_investment principal rate years infl en f amt
      = (one_time_investment_raw principal rate years infl en f amt).map
          (quantizeOneTime infl))
    ∧ (sip_calculator monthly rate years infl en f pct
      = (sip_calculator_raw monthly rate years infl en f pct).map
          (quantizeSIP infl))
    ∧ (swp_calculator initial withdrawal rate years infl en f pct
      = (swp_calculator_raw initial withdrawal rate years infl en f pct).map
          (quantizeSWP infl))
    ∧ (∀ r : OneTimeRow,
        (quantizeOneTime infl r).totalPrincipal = truncZ r.totalPrincipal
        ∧ (quantizeOneTime infl r).additionalInvestment
            = truncZ r.additionalInvestment
        ∧ (quantizeOneTime infl r).finalAmount = truncZ r.finalAmount
        ∧ (quantizeOneTime infl r).interestEarned = truncZ r.interestEarned
        ∧ (quantizeOneTime infl r).interestPercent = round2 r.interestPercent
        ∧ (quantizeOneTime infl r).realValue
            = if 0 < infl then some (truncZ r.realValue) else none)
    ∧ (∀ r : SIPRow,
        (quantizeSIP infl r).monthlySIP = truncZ r.monthlySIP
        ∧ (quantizeSIP infl r).annualInvestment = truncZ r.annualInvestment
        ∧ (quantizeSIP infl r).totalInvested = truncZ r.totalInvested
        ∧ (quantizeSIP infl r).finalAmount = truncZ r.finalAmount
        ∧ (quantizeSIP infl r).gains = truncZ r.gains
        ∧ (quantizeSIP infl r).gainsPercent = round2 r.gainsPercent
        ∧ (quantizeSIP infl r).realValue
            = if 0 < infl then some (truncZ r.realValue) else none)
    ∧ (∀ r : SWPRow,
        (quantizeSWP infl r).monthlyWithdrawal = truncZ r.monthlyWithdrawal
        ∧ (quantizeSWP infl r).annualWithdrawn = truncZ r.annualWithdrawn
        ∧ (quantizeSWP infl r).remainingBalance = truncZ r.remainingBalance
        ∧ (quantizeSWP infl r).totalWithdrawn = truncZ r.totalWithdrawn
        ∧ (quantizeSWP infl r).realBalance
            = if 0 < infl then some (truncZ r.realBalance) else none)
    ∧ (∀ q : ℚ, 0 ≤ q → truncZ q = ⌊q⌋)
    ∧ (∀ q : ℚ, q < 0 → truncZ q = ⌈q⌉)
    ∧ (∀ q : ℚ, |(truncZ q : ℚ)| ≤ |q| ∧ |q| < |(truncZ q : ℚ)| + 1)
    ∧ (∀ q : ℚ, |round2 q - q| ≤ 1 / 200 ∧ ∃ z : ℤ, round2 q * 100 = z) := by
  refine ⟨rfl, rfl, rfl,
    fun r => ⟨rfl, rfl, rfl, rfl, rfl, rfl⟩,
    fun r => ⟨rfl, rfl, rfl, rfl, rfl, rfl, rfl⟩,
    fun r => ⟨rfl, rfl, rfl, rfl, rfl⟩,
    fun q hq => if_pos hq,
    fun q hq => if_neg (not_le.2 hq),
    fun q => ?_, fun q => ⟨?_, ?_⟩⟩
  · rcases le_or_lt 0 q with h | h
    · rw [truncZ, if_pos h]
      have hf : (0:ℚ) ≤ (⌊q⌋ : ℚ) := by exact_mod_cast Int.floor_nonneg.mpr h
      rw [abs_of_nonneg h, abs_of_nonneg hf]
      exact ⟨Int.floor_le q, Int.lt_floor_add_one q⟩
    · rw [truncZ, if_neg (not_le.2 h)]
      have hc : (⌈q⌉ : ℚ) ≤ 0 := by
        have : ⌈q⌉ ≤ (0 : ℤ) := Int.ceil_le.mpr (by exact_mod_cast le_of_lt h)
        exact_mod_cast this
      rw [abs_of_neg h, abs_of_nonpos hc]
      have h1 := Int.le_ceil q
      have h2 := Int.ceil_lt_add_one q
      constructor <;> linarith
  · have h1 : round2 q - q = ((round (q * 100) : ℚ) - q * 100) / 100 := by
      rw [round2]
      ring
    have h2 := abs_sub_round (q * 100)
    have h3 : |(round (q * 100) : ℚ) - q * 100| = |q * 100 - (round (q * 100) : ℚ)| :=
      abs_sub_comm _ _
    rw [h1, abs_div, abs_of_pos (by norm_num : (0:ℚ) < 100)]
    linarith
  · refine ⟨round (q * 100), ?_⟩
    rw [round2]
    field_simp

/-- **C10, witness**: the truncation characterization applied at `±5/2`. -/
theorem output_quantization_witness :
    truncZ (5/2) = ⌊(5/2 : ℚ)⌋ ∧ truncZ (-5/2) = ⌈(-5/2 : ℚ)⌉ :=
  ⟨(output_quantization 1 1 1 1 1 1 1 false "yearly" 1 1).2.2.2.2.2.2.1
      (5/2) (by norm_num),
   (output_quantization 1 1 1 1 1 1 1 false "yearly" 1 1).2.2.2.2.2.2.2.1
      (-5/2) (by norm_num)⟩
